import Mathlib

/-!
Shallow embedding of the GenRun trend-detection core:
the scoring function and analysis pipeline of
src/app/services/trend_analyzer.py, the store operations of
src/app/database.py and the orchestration of src/app/scheduler.py.

Numbers: Python floats carrying prices, velocities and scores are
modelled as rationals; integer volumes and ranks as integers; timestamps
as integers.  Python truthiness tests on optional numeric fields
(if product.price, if product.rank) are modelled by an explicit
zero test alongside the None test, matching CPython semantics where
0 and 0.0 are falsy.
-/

namespace GenRun

/-- app/models.py, ScrapedProduct. -/
structure ScrapedProduct where
  name : String
  category : String
  url : String
  price : Option ℚ := none
  rank : Option ℤ := none
deriving DecidableEq

/-- The dict produced by GoogleTrendsScraper.get_trend_data /
_get_fallback_data in app/scrapers/google_trends.py: both always carry
these five keys plus the keyword. -/
structure TrendData where
  keyword : String
  current_volume : ℤ
  average_volume : ℤ
  max_volume : ℤ
  velocity : ℚ
  has_data : Bool
deriving DecidableEq

/-- app/models.py, TrendingProduct (pydantic defaults included). -/
structure TrendingProduct where
  id : Option ℕ := none
  product_name : String
  category : String
  source_url : String
  trend_score : ℚ
  search_volume : Option ℤ := none
  price_estimate : Option ℚ := none
  first_seen_date : Option ℤ := none
  last_updated : Option ℤ := none
  status : String := "active"
  notes : Option String := none
deriving DecidableEq

/-- trend_analyzer.py lines 43-52: the velocity bucket of the search
volume component. -/
def velocityScore (velocity : ℚ) : ℚ :=
  if velocity > 100 then 25
  else if velocity > 50 then 20
  else if velocity > 20 then 15
  else if velocity > 0 then 10
  else 5

/-- trend_analyzer.py lines 54-64: the volume bucket of the search
volume component. -/
def volumeScore (volume : ℤ) : ℚ :=
  if volume > 75 then 15
  else if volume > 50 then 12
  else if volume > 25 then 8
  else if volume > 10 then 5
  else 2

/-- trend_analyzer.py lines 37-69: search-volume component, with the
flat 15-point fallback when trend data is absent or marked has_data
false. -/
def interestScore (trend_data : Option TrendData) : ℚ :=
  match trend_data with
  | some td =>
    if td.has_data then velocityScore td.velocity + volumeScore td.current_volume
    else 15
  | none => 15

/-- trend_analyzer.py lines 71-84: recency component from the rank.
Python truthiness: rank None or 0 takes the default branch. -/
def rankScore (rank : Option ℤ) : ℚ :=
  match rank with
  | some r =>
    if r = 0 then 20
    else if r ≤ 10 then 30
    else if r ≤ 25 then 25
    else if r ≤ 50 then 20
    else 15
  | none => 20

/-- trend_analyzer.py lines 86-102: price viability component.
Python truthiness: price None or 0.0 takes the neutral branch. -/
def priceScore (price : Option ℚ) : ℚ :=
  match price with
  | some p =>
    if p = 0 then 10
    else if 15 ≤ p ∧ p ≤ 150 then
      if 25 ≤ p ∧ p ≤ 75 then 20 else 15
    else if (10 ≤ p ∧ p < 15) ∨ (150 < p ∧ p ≤ 200) then 10
    else 5
  | none => 10

/-- trend_analyzer.py lines 104-121: competition component, with the
flat 7-point fallback when trend data is absent or marked has_data
false. -/
def competitionScore (trend_data : Option TrendData) : ℚ :=
  match trend_data with
  | some td =>
    if td.has_data then
      if td.current_volume < 30 then 10
      else if td.current_volume < 60 then 7
      else if td.current_volume < 85 then 4
      else 2
    else 7
  | none => 7

/-- The accumulated sum of the four components of
TrendAnalyzer.calculate_trend_score before the final clamp
(trend_analyzer.py lines 35-121). -/
def rawScore (product : ScrapedProduct) (trend_data : Option TrendData) : ℚ :=
  interestScore trend_data + rankScore product.rank + priceScore product.price
    + competitionScore trend_data

/-- Python max of two numbers (value level; ties agree either way). -/
def pyMax (a b : ℚ) : ℚ := if b ≤ a then a else b

/-- Python min of two numbers (value level; ties agree either way). -/
def pyMin (a b : ℚ) : ℚ := if a ≤ b then a else b

/-- trend_analyzer.py lines 21-124: TrendAnalyzer.calculate_trend_score,
the accumulated component sum clamped via min(max(score, 0), 100) on
line 124. -/
def calculate_trend_score (product : ScrapedProduct) (trend_data : Option TrendData) : ℚ :=
  pyMin (pyMax (rawScore product trend_data) 0) 100

/-- Python round(x, 2): rounding to two decimal places.  All scores the
pipeline rounds are integers, on which any tie-breaking convention
agrees, so round-half-up is a faithful model. -/
def round2 (x : ℚ) : ℚ := (round (x * 100) : ℤ) / 100

/-- trend_analyzer.py line 138: the sort key p.rank if p.rank else 999
(Python truthiness: rank None or 0 gives the 999 sentinel). -/
def rankKey (product : ScrapedProduct) : ℤ :=
  match product.rank with
  | some r => if r = 0 then 999 else r
  | none => 999

/-- The ordering used by the rank pre-sort on trend_analyzer.py line
138 (Python sorted is stable; insertionSort is a stable sort). -/
def rankLe (a b : ScrapedProduct) : Prop := rankKey a ≤ rankKey b

instance : DecidableRel rankLe := fun a b =>
  inferInstanceAs (Decidable (rankKey a ≤ rankKey b))

instance : IsTotal ScrapedProduct rankLe :=
  ⟨fun a b => le_total (rankKey a) (rankKey b)⟩

instance : IsTrans ScrapedProduct rankLe :=
  ⟨fun _ _ _ hab hbc => le_trans hab hbc⟩

/-- The descending-score ordering used by the final sort on
trend_analyzer.py line 219 (sort with reverse true, stable). -/
def scoreGe (a b : TrendingProduct) : Prop := b.trend_score ≤ a.trend_score

instance : DecidableRel scoreGe := fun a b =>
  inferInstanceAs (Decidable (b.trend_score ≤ a.trend_score))

instance : IsTotal TrendingProduct scoreGe :=
  ⟨fun a b => (le_total a.trend_score b.trend_score).symm⟩

instance : IsTrans TrendingProduct scoreGe :=
  ⟨fun _ _ _ hab hbc => le_trans hbc hab⟩

/-- trend_analyzer.py lines 145-192: processing of one of the first 15
rank-sorted products.  The external collaborators are parameters:
lookup models GoogleTrendsScraper.get_trend_data (an Optional dict,
never raising — it catches internally and falls back), gemini models
GeminiAnalyzer.analyze_product_potential (returns an Optional string,
never raising — it catches internally).  The returned Bool records
whether a generative-text note was requested (line 160's condition
held, so the analyzer was awaited). -/
def analyzeHead (lookup : ScrapedProduct → Option TrendData) (geminiEnabled : Bool)
    (gemini : ScrapedProduct → ℚ → Option String) (product : ScrapedProduct) :
    TrendingProduct × Bool :=
  let trend_data := lookup product
  let trend_score := calculate_trend_score product trend_data
  let requested := decide (trend_score ≥ 60) && geminiEnabled
  let ai_notes := if requested then gemini product trend_score else none
  let base_notes :=
    match trend_data with
    | some td => "Velocity: " ++ toString td.velocity ++ "%"
    | none => "Bestseller rank bonus"
  let notes :=
    match ai_notes with
    | some a => if a = "" then base_notes else base_notes ++ "\n\n🤖 AI Insight: " ++ a
    | none => base_notes
  (⟨none, product.name, product.category, product.url, round2 trend_score,
    some (match trend_data with | some td => td.current_volume | none => 0),
    product.price, none, none, "active", some notes⟩, requested)

/-- trend_analyzer.py lines 197-216: processing of a product past the
first 15, scored without trend data and never offered a generative
note. -/
def analyzeTail (product : ScrapedProduct) : TrendingProduct × Bool :=
  let trend_score := calculate_trend_score product none
  (⟨none, product.name, product.category, product.url, round2 trend_score,
    some 0, product.price, none, none, "active", some "Bestseller item"⟩, false)

/-- trend_analyzer.py lines 136-216: the scored items in processing
order (rank-ascending pre-sort, head subset of 15 then tail), each
paired with whether a generative-text note was requested for it. -/
def scoredTrace (lookup : ScrapedProduct → Option TrendData) (geminiEnabled : Bool)
    (gemini : ScrapedProduct → ℚ → Option String) (products : List ScrapedProduct) :
    List (TrendingProduct × Bool) :=
  let sorted_products := products.insertionSort rankLe
  (sorted_products.take 15).map (analyzeHead lookup geminiEnabled gemini)
    ++ (sorted_products.drop 15).map analyzeTail

/-- trend_analyzer.py lines 126-223: TrendAnalyzer.analyze_products —
the processed items of scoredTrace, sorted by trend score descending
(line 219, a stable sort). -/
def analyze_products (lookup : ScrapedProduct → Option TrendData) (geminiEnabled : Bool)
    (gemini : ScrapedProduct → ℚ → Option String) (products : List ScrapedProduct) :
    List TrendingProduct :=
  List.insertionSort scoreGe ((scoredTrace lookup geminiEnabled gemini products).map Prod.fst)

/-- trend_analyzer.py lines 225-233: TrendAnalyzer.get_hot_products. -/
def get_hot_products (products : List TrendingProduct) (threshold : ℚ) :
    List TrendingProduct :=
  products.filter (fun p => decide (p.trend_score ≥ threshold))

/-- A row of the trending_products table (README schema / app/models.py
TrendingProduct as persisted: id and first_seen_date assigned by the
store). -/
structure PersistedProduct where
  id : ℕ
  product_name : String
  category : String
  source_url : String
  trend_score : ℚ
  search_volume : Option ℤ
  price_estimate : Option ℚ
  first_seen_date : ℤ
  last_updated : ℤ
  status : String
  notes : Option String
deriving DecidableEq

/-- A row of the trend_history table (app/models.py TrendHistory). -/
structure HistoryEntry where
  product_id : ℕ
  trend_score : ℚ
  search_volume : Option ℤ
deriving DecidableEq

/-- The persistent store backing app/database.py: the two tables plus
the id sequence for trending_products. -/
structure Store where
  products : List PersistedProduct
  history : List HistoryEntry
  nextId : ℕ
deriving DecidableEq

def emptyStore : Store := ⟨[], [], 0⟩

/-- database.py lines 55-65: Database.get_product_by_name — rows with
product_name equal to the given name, first one if any. -/
def get_product_by_name (st : Store) (name : String) : Option PersistedProduct :=
  (st.products.filter (fun r => r.product_name = name)).head?

/-- database.py lines 41-53: the field assignments of
Database.update_trending_product.  The pydantic dump excludes id and
first_seen_date and drops None fields, so optional fields that are
None in the incoming TrendingProduct leave the stored column
unchanged; product_name, category, source_url, trend_score and status
are always present in the payload. -/
def updateFields (tp : TrendingProduct) (r : PersistedProduct) : PersistedProduct :=
  { r with
    product_name := tp.product_name
    category := tp.category
    source_url := tp.source_url
    trend_score := tp.trend_score
    search_volume := match tp.search_volume with | some v => some v | none => r.search_volume
    price_estimate := match tp.price_estimate with | some v => some v | none => r.price_estimate
    last_updated := match tp.last_updated with | some t => t | none => r.last_updated
    status := tp.status
    notes := match tp.notes with | some s => some s | none => r.notes }

/-- database.py lines 41-53: Database.update_trending_product — update
the rows whose id equals product_id; the Bool reports whether any row
matched (the truthiness of the returned dict in the caller). -/
def update_trending_product (st : Store) (product_id : ℕ) (tp : TrendingProduct) :
    Store × Bool :=
  ({ st with
     products := st.products.map (fun r => if r.id = product_id then updateFields tp r else r) },
   st.products.any (fun r => decide (r.id = product_id)))

/-- database.py lines 30-39: Database.insert_trending_product — a new
row with a fresh id; first_seen_date and last_updated are assigned by
the store defaults at insert time (the dump drops them when None).
Returns the inserted row. -/
def insert_trending_product (now : ℤ) (st : Store) (tp : TrendingProduct) :
    Store × PersistedProduct :=
  let r : PersistedProduct :=
    ⟨st.nextId, tp.product_name, tp.category, tp.source_url, tp.trend_score,
     tp.search_volume, tp.price_estimate, now, now, tp.status, tp.notes⟩
  ({ st with products := st.products ++ [r], nextId := st.nextId + 1 }, r)

/-- database.py lines 67-75: Database.insert_trend_history. -/
def insert_trend_history (st : Store) (e : HistoryEntry) : Store :=
  { st with history := st.history ++ [e] }

/-- scheduler.py lines 106-136: the per-item reconciliation step of
TrendDetectionScheduler.run_trend_detection — look up by name, update
if found else insert, and append a history record referencing the
touched id on success. -/
def reconcileItem (now : ℤ) (st : Store) (tp : TrendingProduct) : Store :=
  match get_product_by_name st tp.product_name with
  | some existing =>
    let res := update_trending_product st existing.id tp
    if res.2 then
      insert_trend_history res.1 ⟨existing.id, tp.trend_score, tp.search_volume⟩
    else res.1
  | none =>
    let res := insert_trending_product now st tp
    insert_trend_history res.1 ⟨res.2.id, tp.trend_score, tp.search_volume⟩

/-- scheduler.py lines 106-136: the store loop over top_10, in order. -/
def reconcile (now : ℤ) (st : Store) (top : List TrendingProduct) : Store :=
  top.foldl (reconcileItem now) st

/-- database.py lines 91-105: Database.archive_old_products — set
status to archived on every row with last_updated strictly before the
cutoff (now minus days, in seconds) and trend_score strictly below
50. -/
def archive_old_products (now : ℤ) (days : ℤ) (st : Store) : Store :=
  let cutoff_date := now - days * 86400
  { st with
    products := st.products.map (fun r =>
      if r.last_updated < cutoff_date ∧ r.trend_score < 50 then
        { r with status := "archived" }
      else r) }

/-- The observable outcome of one run of
TrendDetectionScheduler.run_trend_detection (scheduler.py lines
41-161): either an error notification sent through the Discord
notifier with the run terminated early, or a completed run with its
top-10 selection and hot count sent as the summary. -/
inductive RunOutcome where
  | errorNotified (message : String)
  | completed (top_10 : List TrendingProduct) (hot_count : ℕ)
deriving DecidableEq

/-- scheduler.py lines 41-161: run_trend_detection given the already
scraped listings (the AmazonScraper output converted to
ScrapedProduct), threaded over the store state. -/
def run_trend_detection (lookup : ScrapedProduct → Option TrendData) (geminiEnabled : Bool)
    (gemini : ScrapedProduct → ℚ → Option String) (now : ℤ) (st : Store)
    (scraped_products : List ScrapedProduct) : RunOutcome × Store :=
  if scraped_products.isEmpty then
    (.errorNotified "No products scraped from Amazon", st)
  else
    let trending_products := analyze_products lookup geminiEnabled gemini scraped_products
    if trending_products.isEmpty then
      (.errorNotified "No products analyzed successfully", st)
    else
      let top_10 := trending_products.take 10
      let hot_products := get_hot_products trending_products 70
      let st_stored := reconcile now st top_10
      let st_archived := archive_old_products now 30 st_stored
      (.completed top_10 hot_products.length, st_archived)

/-! ### Component bounds and integrality -/

lemma velocityScore_bounds (v : ℚ) : 5 ≤ velocityScore v ∧ velocityScore v ≤ 25 := by
  unfold velocityScore; split_ifs <;> norm_num

lemma volumeScore_bounds (v : ℤ) : 2 ≤ volumeScore v ∧ volumeScore v ≤ 15 := by
  unfold volumeScore; split_ifs <;> norm_num

lemma interestScore_bounds (td : Option TrendData) :
    7 ≤ interestScore td ∧ interestScore td ≤ 40 := by
  cases td with
  | none => simp only [interestScore]; norm_num
  | some d =>
    simp only [interestScore]
    split_ifs with h
    · have h1 := velocityScore_bounds d.velocity
      have h2 := volumeScore_bounds d.current_volume
      constructor <;> linarith
    · norm_num

lemma rankScore_bounds (r : Option ℤ) : 15 ≤ rankScore r ∧ rankScore r ≤ 30 := by
  cases r with
  | none => simp only [rankScore]; norm_num
  | some n => simp only [rankScore]; split_ifs <;> norm_num

lemma priceScore_bounds (p : Option ℚ) : 5 ≤ priceScore p ∧ priceScore p ≤ 20 := by
  cases p with
  | none => simp only [priceScore]; norm_num
  | some q => simp only [priceScore]; split_ifs <;> norm_num

lemma competitionScore_bounds (td : Option TrendData) :
    2 ≤ competitionScore td ∧ competitionScore td ≤ 10 := by
  cases td with
  | none => simp only [competitionScore]; norm_num
  | some d => simp only [competitionScore]; split_ifs <;> norm_num

lemma rawScore_bounds (p : ScrapedProduct) (td : Option TrendData) :
    29 ≤ rawScore p td ∧ rawScore p td ≤ 100 := by
  have h1 := interestScore_bounds td
  have h2 := rankScore_bounds p.rank
  have h3 := priceScore_bounds p.price
  have h4 := competitionScore_bounds td
  unfold rawScore
  constructor <;> linarith

/-- The clamp on line 124 never fires: the accumulated sum is already
inside the bounds. -/
lemma calculate_trend_score_eq_rawScore (p : ScrapedProduct) (td : Option TrendData) :
    calculate_trend_score p td = rawScore p td := by
  have h := rawScore_bounds p td
  unfold calculate_trend_score pyMax pyMin
  rw [if_pos (by linarith : (0:ℚ) ≤ rawScore p td), if_pos h.2]

lemma velocityScore_nat (v : ℚ) : ∃ n : ℕ, velocityScore v = n := by
  unfold velocityScore; split_ifs
  exacts [⟨25, by norm_num⟩, ⟨20, by norm_num⟩, ⟨15, by norm_num⟩, ⟨10, by norm_num⟩,
    ⟨5, by norm_num⟩]

lemma volumeScore_nat (v : ℤ) : ∃ n : ℕ, volumeScore v = n := by
  unfold volumeScore; split_ifs
  exacts [⟨15, by norm_num⟩, ⟨12, by norm_num⟩, ⟨8, by norm_num⟩, ⟨5, by norm_num⟩,
    ⟨2, by norm_num⟩]

lemma interestScore_nat (td : Option TrendData) : ∃ n : ℕ, interestScore td = n := by
  cases td with
  | none => exact ⟨15, by simp [interestScore]⟩
  | some d =>
    simp only [interestScore]
    split_ifs
    · obtain ⟨a, ha⟩ := velocityScore_nat d.velocity
      obtain ⟨b, hb⟩ := volumeScore_nat d.current_volume
      exact ⟨a + b, by rw [ha, hb]; push_cast; ring⟩
    · exact ⟨15, by norm_num⟩

lemma rankScore_nat (r : Option ℤ) : ∃ n : ℕ, rankScore r = n := by
  cases r with
  | none => exact ⟨20, by simp [rankScore]⟩
  | some m =>
    simp only [rankScore]
    split_ifs
    exacts [⟨20, by norm_num⟩, ⟨30, by norm_num⟩, ⟨25, by norm_num⟩, ⟨20, by norm_num⟩,
      ⟨15, by norm_num⟩]

lemma priceScore_nat (p : Option ℚ) : ∃ n : ℕ, priceScore p = n := by
  cases p with
  | none => exact ⟨10, by simp [priceScore]⟩
  | some q =>
    simp only [priceScore]
    split_ifs
    exacts [⟨10, by norm_num⟩, ⟨20, by norm_num⟩, ⟨15, by norm_num⟩, ⟨10, by norm_num⟩,
      ⟨5, by norm_num⟩]

lemma competitionScore_nat (td : Option TrendData) : ∃ n : ℕ, competitionScore td = n := by
  cases td with
  | none => exact ⟨7, by simp [competitionScore]⟩
  | some d =>
    simp only [competitionScore]
    split_ifs
    exacts [⟨10, by norm_num⟩, ⟨7, by norm_num⟩, ⟨4, by norm_num⟩, ⟨2, by norm_num⟩,
      ⟨7, by norm_num⟩]

/-- Every score the engine produces is a whole number (all bucket
constants are integers). -/
lemma calculate_trend_score_nat (p : ScrapedProduct) (td : Option TrendData) :
    ∃ n : ℕ, calculate_trend_score p td = n := by
  obtain ⟨a, ha⟩ := interestScore_nat td
  obtain ⟨b, hb⟩ := rankScore_nat p.rank
  obtain ⟨c, hc⟩ := priceScore_nat p.price
  obtain ⟨d, hd⟩ := competitionScore_nat td
  refine ⟨a + b + c + d, ?_⟩
  rw [calculate_trend_score_eq_rawScore]
  unfold rawScore
  rw [ha, hb, hc, hd]
  push_cast
  ring

/-- Rounding to two decimals is the identity on whole numbers. -/
lemma round2_natCast (n : ℕ) : round2 (n : ℚ) = n := by
  unfold round2
  have h1 : ((n : ℚ) * 100) = ((n * 100 : ℕ) : ℚ) := by push_cast; ring
  rw [h1, round_natCast]
  push_cast
  field_simp

lemma round2_calculate (p : ScrapedProduct) (td : Option TrendData) :
    round2 (calculate_trend_score p td) = calculate_trend_score p td := by
  obtain ⟨n, hn⟩ := calculate_trend_score_nat p td
  rw [hn, round2_natCast]

/-! ### Claim C1 -/

/-- C1: for every ScrapedProduct and every optional trend_data,
TrendAnalyzer.calculate_trend_score returns a value in the closed
interval [0, 100].  (Proved for all inputs, with no constraint on
price or rank; the embedding is a total function, so no exception is
possible for any such input.) -/
theorem calculate_trend_score_in_range (product : ScrapedProduct) (td : Option TrendData) :
    0 ≤ calculate_trend_score product td ∧ calculate_trend_score product td ≤ 100 := by
  rw [calculate_trend_score_eq_rawScore]
  have h := rawScore_bounds product td
  exact ⟨by linarith, h.2⟩

/-! ### Claim C10 -/

/-- C10: the accumulated sum of the four sub-scores lies in [29, 100]
before the final clamp, so min(max(score, 0), 100) never alters the
result and no item is ever scored below 29. -/
theorem rawScore_in_range_clamp_noop (product : ScrapedProduct) (td : Option TrendData) :
    29 ≤ rawScore product td ∧ rawScore product td ≤ 100 ∧
      calculate_trend_score product td = rawScore product td :=
  ⟨(rawScore_bounds product td).1, (rawScore_bounds product td).2,
    calculate_trend_score_eq_rawScore product td⟩

/-! ### Claim C4 -/

/-- C4 counterexample: a listing price equal to 0 is falsy in Python,
so the price component returns the missing-price neutral value 10, not
the 5 the claim assigns to prices outside [10, 200]. -/
theorem priceScore_zero_counterexample : priceScore (some 0) = 10 ∧ (10 : ℚ) ≠ 5 :=
  ⟨by simp [priceScore], by norm_num⟩

set_option maxHeartbeats 1600000 in
/-- C4 (amended): the price component maps price p exactly as the claim
states for every nonzero price — [25,75] to 20, [15,25) and (75,150] to
15, [10,15) and (150,200] to 10, otherwise 5 — while a missing price
gives 10 and a price equal to 0 also gives 10 (it is treated like a
missing price, not like an out-of-range one). -/
theorem priceScore_characterization :
    (∀ p : ℚ, priceScore (some p) =
      if p = 0 then 10
      else if 25 ≤ p ∧ p ≤ 75 then 20
      else if (15 ≤ p ∧ p < 25) ∨ (75 < p ∧ p ≤ 150) then 15
      else if (10 ≤ p ∧ p < 15) ∨ (150 < p ∧ p ≤ 200) then 10
      else 5) ∧ priceScore none = 10 := by
  refine ⟨fun p => ?_, by simp [priceScore]⟩
  simp only [priceScore]
  split_ifs <;>
    first
      | rfl
      | (exfalso; simp only [not_and_or, not_or, not_le, not_lt] at *;
          casesm* _ ∧ _, _ ∨ _ <;> linarith)

/-! ### Claim C9 -/

/-- C9: the archival sweep sets a row's status to archived exactly when
last_updated is strictly older than the cutoff (now minus days, 86400
seconds per day) and trend_score is strictly below 50 (or the row was
already archived); rows failing the condition are left entirely
unchanged, and rows meeting it change only their status.  The sweep
takes no top_n input at all, so the outcome is independent of the
current run's top_n. -/
theorem archive_old_products_spec (now days : ℤ) (st : Store) (i : ℕ) (r : PersistedProduct)
    (h : st.products[i]? = some r) :
    ∃ r2, (archive_old_products now days st).products[i]? = some r2 ∧
      (r2.status = "archived" ↔
        ((r.last_updated < now - days * 86400 ∧ r.trend_score < 50) ∨ r.status = "archived")) ∧
      ((r.last_updated < now - days * 86400 ∧ r.trend_score < 50) →
        r2 = { r with status := "archived" }) ∧
      (¬(r.last_updated < now - days * 86400 ∧ r.trend_score < 50) → r2 = r) := by
  by_cases hc : r.last_updated < now - days * 86400 ∧ r.trend_score < 50
  · refine ⟨{ r with status := "archived" }, ?_, ?_, fun _ => rfl, fun hn => absurd hc hn⟩
    · simp [archive_old_products, List.getElem?_map, h, hc]
    · simp [hc]
  · refine ⟨r, ?_, ?_, fun hcc => absurd hcc hc, fun _ => rfl⟩
    · simp [archive_old_products, List.getElem?_map, h, hc]
    · simp [hc]

def oldRecord : PersistedProduct :=
  ⟨0, "Old Gadget", "cat", "url", 40, none, none, 0, 0, "active", none⟩

def staleStore : Store := ⟨[oldRecord], [], 1⟩

/-- C9 witness: a store holding one stale low-score active record,
swept 31 days later. -/
theorem archive_old_products_spec_witness :
    ∃ r2, (archive_old_products 2678400 30 staleStore).products[0]? = some r2 ∧
      (r2.status = "archived" ↔
        ((oldRecord.last_updated < 2678400 - 30 * 86400 ∧ oldRecord.trend_score < 50) ∨
          oldRecord.status = "archived")) ∧
      ((oldRecord.last_updated < 2678400 - 30 * 86400 ∧ oldRecord.trend_score < 50) →
        r2 = { oldRecord with status := "archived" }) ∧
      (¬(oldRecord.last_updated < 2678400 - 30 * 86400 ∧ oldRecord.trend_score < 50) →
        r2 = oldRecord) :=
  archive_old_products_spec 2678400 30 staleStore 0 oldRecord rfl

/-! ### Claim C6 -/

/-- C6: run_trend_detection sends an error notification and stops with
the store untouched (no reconciliation, no archival) exactly when the
scraped listing sequence is empty or scoring produces zero scored
items; in every other case it completes, reconciling the top 10 into
the store and then running the archival sweep. -/
theorem run_trend_detection_error_cases (lookup : ScrapedProduct → Option TrendData)
    (geminiEnabled : Bool) (gemini : ScrapedProduct → ℚ → Option String) (now : ℤ)
    (st : Store) (scraped : List ScrapedProduct) :
    ((∃ msg, (run_trend_detection lookup geminiEnabled gemini now st scraped).1 =
        .errorNotified msg) ↔
      (scraped = [] ∨ analyze_products lookup geminiEnabled gemini scraped = [])) ∧
    ((scraped = [] ∨ analyze_products lookup geminiEnabled gemini scraped = []) →
      (run_trend_detection lookup geminiEnabled gemini now st scraped).2 = st) ∧
    (¬(scraped = [] ∨ analyze_products lookup geminiEnabled gemini scraped = []) →
      run_trend_detection lookup geminiEnabled gemini now st scraped =
        (.completed ((analyze_products lookup geminiEnabled gemini scraped).take 10)
          (get_hot_products (analyze_products lookup geminiEnabled gemini scraped) 70).length,
         archive_old_products now 30 (reconcile now st
           ((analyze_products lookup geminiEnabled gemini scraped).take 10)))) := by
  unfold run_trend_detection
  by_cases h1 : scraped = []
  · simp [h1]
  · by_cases h2 : analyze_products lookup geminiEnabled gemini scraped = []
    · simp [h1, h2, List.isEmpty_iff]
    · simp [h1, h2, List.isEmpty_iff]

/-- C6 witness: an empty scrape ends the run with an error
notification and an untouched store. -/
theorem run_trend_detection_error_cases_witness :
    (∃ msg, (run_trend_detection (fun _ => none) false (fun _ _ => none) 0 emptyStore []).1 =
        .errorNotified msg) ∧
    (run_trend_detection (fun _ => none) false (fun _ _ => none) 0 emptyStore []).2 =
      emptyStore :=
  ⟨(run_trend_detection_error_cases (fun _ => none) false (fun _ _ => none) 0
      emptyStore []).1.mpr (Or.inl rfl),
   (run_trend_detection_error_cases (fun _ => none) false (fun _ _ => none) 0
      emptyStore []).2.1 (Or.inl rfl)⟩

/-! ### Pipeline facts shared by the analysis claims -/

lemma analyzeHead_name (lookup : ScrapedProduct → Option TrendData) (geminiEnabled : Bool)
    (gemini : ScrapedProduct → ℚ → Option String) (p : ScrapedProduct) :
    (analyzeHead lookup geminiEnabled gemini p).1.product_name = p.name := rfl

lemma analyzeTail_name (p : ScrapedProduct) : (analyzeTail p).1.product_name = p.name := rfl

lemma analyzeHead_score (lookup : ScrapedProduct → Option TrendData) (geminiEnabled : Bool)
    (gemini : ScrapedProduct → ℚ → Option String) (p : ScrapedProduct) :
    (analyzeHead lookup geminiEnabled gemini p).1.trend_score =
      round2 (calculate_trend_score p (lookup p)) := rfl

lemma analyzeHead_requested (lookup : ScrapedProduct → Option TrendData) (geminiEnabled : Bool)
    (gemini : ScrapedProduct → ℚ → Option String) (p : ScrapedProduct) :
    (analyzeHead lookup geminiEnabled gemini p).2 =
      (decide (calculate_trend_score p (lookup p) ≥ 60) && geminiEnabled) := rfl

lemma analyzeTail_requested (p : ScrapedProduct) : (analyzeTail p).2 = false := rfl

lemma scoredTrace_length (lookup : ScrapedProduct → Option TrendData) (geminiEnabled : Bool)
    (gemini : ScrapedProduct → ℚ → Option String) (products : List ScrapedProduct) :
    (scoredTrace lookup geminiEnabled gemini products).length = products.length := by
  simp only [scoredTrace, List.length_append, List.length_map, List.length_take,
    List.length_drop, List.length_insertionSort]
  omega

lemma analyze_products_length (lookup : ScrapedProduct → Option TrendData)
    (geminiEnabled : Bool) (gemini : ScrapedProduct → ℚ → Option String)
    (products : List ScrapedProduct) :
    (analyze_products lookup geminiEnabled gemini products).length = products.length := by
  simp only [analyze_products, List.length_insertionSort, List.length_map]
  exact scoredTrace_length lookup geminiEnabled gemini products

lemma scoredTrace_names (lookup : ScrapedProduct → Option TrendData) (geminiEnabled : Bool)
    (gemini : ScrapedProduct → ℚ → Option String) (products : List ScrapedProduct) :
    (scoredTrace lookup geminiEnabled gemini products).map (fun x => x.1.product_name) =
      (products.insertionSort rankLe).map (fun p => p.name) := by
  unfold scoredTrace
  rw [List.map_append, List.map_map, List.map_map,
    show ((fun x : TrendingProduct × Bool => x.1.product_name) ∘
        analyzeHead lookup geminiEnabled gemini) = (fun p : ScrapedProduct => p.name) from rfl,
    show ((fun x : TrendingProduct × Bool => x.1.product_name) ∘ analyzeTail) =
        (fun p : ScrapedProduct => p.name) from rfl,
    ← List.map_append, List.take_append_drop]

lemma analyze_products_names_perm (lookup : ScrapedProduct → Option TrendData)
    (geminiEnabled : Bool) (gemini : ScrapedProduct → ℚ → Option String)
    (products : List ScrapedProduct) :
    ((analyze_products lookup geminiEnabled gemini products).map
        (fun tp => tp.product_name)).Perm (products.map (fun p => p.name)) := by
  unfold analyze_products
  refine ((List.perm_insertionSort scoreGe _).map _).trans ?_
  rw [List.map_map,
    show ((fun tp : TrendingProduct => tp.product_name) ∘ Prod.fst) =
      (fun x : TrendingProduct × Bool => x.1.product_name) from rfl,
    scoredTrace_names]
  exact (List.perm_insertionSort rankLe products).map _

/-! ### Claim C8 -/

def dupProduct : ScrapedProduct := ⟨"Dup Widget", "cat", "url", some 30, some 1⟩

/-- C8 counterexample: the same product name scraped twice yields two
scored items with that name — the pipeline performs no deduplication. -/
theorem analyze_products_dup_counterexample :
    ((analyze_products (fun _ => none) false (fun _ _ => none) [dupProduct, dupProduct]).map
        (fun tp => tp.product_name)).count "Dup Widget" = 2 := by
  rw [(analyze_products_names_perm (fun _ => none) false (fun _ _ => none)
    [dupProduct, dupProduct]).count_eq]
  rfl

/-- C8 (amended): the scored output carries exactly one item per input
listing — the multiset of output product names equals the multiset of
input names, so a name occurring in k listings yields k scored items
rather than being deduplicated to one. -/
theorem analyze_products_no_dedup (lookup : ScrapedProduct → Option TrendData)
    (geminiEnabled : Bool) (gemini : ScrapedProduct → ℚ → Option String)
    (products : List ScrapedProduct) :
    ((analyze_products lookup geminiEnabled gemini products).map
        (fun tp => tp.product_name)).Perm (products.map (fun p => p.name)) :=
  analyze_products_names_perm lookup geminiEnabled gemini products

/-! ### Claim C3 -/

def qFirst : ScrapedProduct := ⟨"Q1", "cat", "url", some 30, some 40⟩

def qSecond : ScrapedProduct := ⟨"Q2", "cat", "url", some 30, some 30⟩

def scoredQ1 : TrendingProduct := (analyzeHead (fun _ => none) false (fun _ _ => none) qFirst).1

def scoredQ2 : TrendingProduct := (analyzeHead (fun _ => none) false (fun _ _ => none) qSecond).1

lemma scoredQ1_score : scoredQ1.trend_score = 62 := by
  show round2 (calculate_trend_score qFirst none) = 62
  rw [show calculate_trend_score qFirst none = ((62 : ℕ) : ℚ) from by
    norm_num [calculate_trend_score, pyMin, pyMax, rawScore, interestScore, rankScore,
      priceScore, competitionScore, qFirst], round2_natCast]
  norm_num

lemma scoredQ2_score : scoredQ2.trend_score = 62 := by
  show round2 (calculate_trend_score qSecond none) = 62
  rw [show calculate_trend_score qSecond none = ((62 : ℕ) : ℚ) from by
    norm_num [calculate_trend_score, pyMin, pyMax, rawScore, interestScore, rankScore,
      priceScore, competitionScore, qSecond], round2_natCast]
  norm_num

lemma analyzeQ_eval :
    analyze_products (fun _ => none) false (fun _ _ => none) [qFirst, qSecond] =
      [scoredQ2, scoredQ1] := by
  have hpre : (scoredTrace (fun _ => none) false (fun _ _ => none)
      [qFirst, qSecond]).map Prod.fst = [scoredQ2, scoredQ1] := rfl
  have hsorted : List.Sorted scoreGe [scoredQ2, scoredQ1] := by
    simp [List.sorted_cons, scoreGe, scoredQ1_score, scoredQ2_score]
  unfold analyze_products
  rw [hpre, hsorted.insertionSort_eq]

/-- C3 counterexample: two listings with equal resulting scores, given
in input order [Q1 (rank 40), Q2 (rank 30)], come out as [Q2, Q1]: the
tie is broken by the rank-ascending pre-sort of line 138, not by
original input order. -/
theorem analyze_products_tie_counterexample :
    ([qFirst, qSecond].map (fun p => p.name) = ["Q1", "Q2"]) ∧
    ((analyze_products (fun _ => none) false (fun _ _ => none) [qFirst, qSecond]).map
        (fun tp => tp.product_name) = ["Q2", "Q1"]) ∧
    ((analyze_products (fun _ => none) false (fun _ _ => none) [qFirst, qSecond]).map
        (fun tp => tp.trend_score) = [62, 62]) := by
  refine ⟨rfl, ?_, ?_⟩ <;> rw [analyzeQ_eval]
  · rfl
  · simp [scoredQ1_score, scoredQ2_score]

/-- C3 (amended): the scored output is sorted by trend_score descending,
and any two items with equal trend_score appear in the relative order
of the processing sequence — the rank-ascending pre-sorted order of
line 138 — which need not be the original input order. -/
theorem analyze_products_sorted_stable (lookup : ScrapedProduct → Option TrendData)
    (geminiEnabled : Bool) (gemini : ScrapedProduct → ℚ → Option String)
    (products : List ScrapedProduct) :
    (analyze_products lookup geminiEnabled gemini products).Sorted scoreGe ∧
    (∀ a b : TrendingProduct, a.trend_score = b.trend_score →
      [a, b].Sublist ((scoredTrace lookup geminiEnabled gemini products).map Prod.fst) →
      [a, b].Sublist (analyze_products lookup geminiEnabled gemini products)) :=
  ⟨List.sorted_insertionSort scoreGe _,
   fun _ _ hab hsub => List.pair_sublist_insertionSort (le_of_eq hab.symm) hsub⟩

/-- C3 witness: the stability clause applied to a concrete pair of
equal-score items. -/
theorem analyze_products_sorted_stable_witness :
    [scoredQ2, scoredQ2].Sublist (analyze_products (fun _ => none) false (fun _ _ => none)
      [qSecond, qSecond]) :=
  (analyze_products_sorted_stable (fun _ => none) false (fun _ _ => none)
    [qSecond, qSecond]).2 scoredQ2 scoredQ2 rfl
    (by rw [show (scoredTrace (fun _ => none) false (fun _ _ => none)
        [qSecond, qSecond]).map Prod.fst = [scoredQ2, scoredQ2] from rfl])

/-! ### Claim C2 -/

def widgetA : ScrapedProduct := ⟨"Widget A", "cat", "url", some 30, some 1⟩

def widgetB : ScrapedProduct := ⟨"Widget B", "cat", "url", some 5, some 60⟩

def scoredWidgetA : TrendingProduct :=
  (analyzeHead (fun _ => none) false (fun _ _ => none) widgetA).1

def scoredWidgetB : TrendingProduct :=
  (analyzeHead (fun _ => none) false (fun _ _ => none) widgetB).1

lemma scoredWidgetA_score : scoredWidgetA.trend_score = 72 := by
  show round2 (calculate_trend_score widgetA none) = 72
  rw [show calculate_trend_score widgetA none = ((72 : ℕ) : ℚ) from by
    norm_num [calculate_trend_score, pyMin, pyMax, rawScore, interestScore, rankScore,
      priceScore, competitionScore, widgetA], round2_natCast]
  norm_num

lemma scoredWidgetB_score : scoredWidgetB.trend_score = 42 := by
  show round2 (calculate_trend_score widgetB none) = 42
  rw [show calculate_trend_score widgetB none = ((42 : ℕ) : ℚ) from by
    norm_num [calculate_trend_score, pyMin, pyMax, rawScore, interestScore, rankScore,
      priceScore, competitionScore, widgetB], round2_natCast]
  norm_num

lemma analyzeWidgets_eval :
    analyze_products (fun _ => none) false (fun _ _ => none) [widgetA, widgetB] =
      [scoredWidgetA, scoredWidgetB] := by
  have hpre : (scoredTrace (fun _ => none) false (fun _ _ => none)
      [widgetA, widgetB]).map Prod.fst = [scoredWidgetA, scoredWidgetB] := rfl
  have hsorted : List.Sorted scoreGe [scoredWidgetA, scoredWidgetB] := by
    simp [List.sorted_cons, scoreGe, scoredWidgetA_score, scoredWidgetB_score]
    norm_num
  unfold analyze_products
  rw [hpre, hsorted.insertionSort_eq]

/-- C2 counterexample: with no interest data available the code scores
Widget A at 72 (neutral interest 15, rank 30, price 20, competition 7),
outside the claimed band [65, 67], and the hot set at threshold 70 is
[Widget A], not empty. -/
theorem widget_example_counterexample :
    ((analyze_products (fun _ => none) false (fun _ _ => none) [widgetA, widgetB]).map
        (fun tp => tp.trend_score) = [72, 42]) ∧
    ¬((72 : ℚ) ≤ 67) ∧
    ((get_hot_products (analyze_products (fun _ => none) false (fun _ _ => none)
        [widgetA, widgetB]) 70).map (fun tp => tp.product_name) = ["Widget A"]) := by
  refine ⟨?_, by norm_num, ?_⟩ <;> rw [analyzeWidgets_eval]
  · simp [scoredWidgetA_score, scoredWidgetB_score]
  · norm_num [get_hot_products, List.filter, scoredWidgetA_score, scoredWidgetB_score]
    rfl

/-- C2 (amended): on the two-widget input with no interest data
available, Widget A scores exactly 72 and Widget B exactly 42 (the
neutral fallbacks are 15 for interest and 7 for competition, not the
claimed 10 and 5..7), the output — hence top_n — is [Widget A,
Widget B] in that order, and the hot set at threshold 70 is
[Widget A]. -/
theorem widget_example_eval :
    ((analyze_products (fun _ => none) false (fun _ _ => none) [widgetA, widgetB]).map
        (fun tp => tp.product_name) = ["Widget A", "Widget B"]) ∧
    ((analyze_products (fun _ => none) false (fun _ _ => none) [widgetA, widgetB]).map
        (fun tp => tp.trend_score) = [72, 42]) ∧
    ((analyze_products (fun _ => none) false (fun _ _ => none)
        [widgetA, widgetB]).take 10 =
      analyze_products (fun _ => none) false (fun _ _ => none) [widgetA, widgetB]) ∧
    ((get_hot_products (analyze_products (fun _ => none) false (fun _ _ => none)
        [widgetA, widgetB]) 70).map (fun tp => tp.product_name) = ["Widget A"]) := by
  refine ⟨?_, ?_, ?_, ?_⟩ <;> rw [analyzeWidgets_eval]
  · rfl
  · simp [scoredWidgetA_score, scoredWidgetB_score]
  · rfl
  · norm_num [get_hot_products, List.filter, scoredWidgetA_score, scoredWidgetB_score]
    rfl

/-! ### Claim C7 -/

def tailProduct : ScrapedProduct := ⟨"P16", "cat", "url", some 30, some 16⟩

def products16 : List ScrapedProduct :=
  [⟨"P01", "cat", "url", some 30, some 1⟩,
   ⟨"P02", "cat", "url", some 30, some 2⟩,
   ⟨"P03", "cat", "url", some 30, some 3⟩,
   ⟨"P04", "cat", "url", some 30, some 4⟩,
   ⟨"P05", "cat", "url", some 30, some 5⟩,
   ⟨"P06", "cat", "url", some 30, some 6⟩,
   ⟨"P07", "cat", "url", some 30, some 7⟩,
   ⟨"P08", "cat", "url", some 30, some 8⟩,
   ⟨"P09", "cat", "url", some 30, some 9⟩,
   ⟨"P10", "cat", "url", some 30, some 10⟩,
   ⟨"P11", "cat", "url", some 30, some 11⟩,
   ⟨"P12", "cat", "url", some 30, some 12⟩,
   ⟨"P13", "cat", "url", some 30, some 13⟩,
   ⟨"P14", "cat", "url", some 30, some 14⟩,
   ⟨"P15", "cat", "url", some 30, some 15⟩,
   tailProduct]

/-- C7 counterexample: with enrichment enabled, the 16th-ranked listing
falls in the tail subset, scores 67 ≥ 60, and yet no generative-text
note is requested for it (the request flag of its trace entry is
false): only head-subset items are ever offered to the analyzer. -/
theorem tail_no_enrichment_counterexample :
    ∃ x, (scoredTrace (fun _ => none) true (fun _ _ => none) products16)[15]? = some x ∧
      x.2 = false ∧ 60 ≤ x.1.trend_score := by
  have hsorted : List.Sorted rankLe products16 := by decide
  have h1 : scoredTrace (fun _ => none) true (fun _ _ => none) products16 =
      (products16.take 15).map (analyzeHead (fun _ => none) true (fun _ _ => none)) ++
        (products16.drop 15).map analyzeTail := by
    unfold scoredTrace
    rw [hsorted.insertionSort_eq]
  refine ⟨analyzeTail tailProduct, ?_, rfl, ?_⟩
  · rw [h1]; rfl
  · show 60 ≤ round2 (calculate_trend_score tailProduct none)
    rw [show calculate_trend_score tailProduct none = ((67 : ℕ) : ℚ) from by
      norm_num [calculate_trend_score, pyMin, pyMax, rawScore, interestScore, rankScore,
        priceScore, competitionScore, tailProduct], round2_natCast]
    norm_num

/-- C7 (amended): a head-subset item has a generative-text note
requested exactly when its resulting trend score is at least 60 and the
enrichment service is enabled; a tail-subset item never has one
requested, regardless of its score; and enrichment absence or failure
(the analyzer returning no text) never prevents an item from being
scored and included — the output always has one scored item per input
listing, whatever the enrichment function returns. -/
theorem enrichment_request_spec :
    (∀ (lookup : ScrapedProduct → Option TrendData) (geminiEnabled : Bool)
        (gemini : ScrapedProduct → ℚ → Option String) (p : ScrapedProduct),
      (analyzeHead lookup geminiEnabled gemini p).2 = true ↔
        (60 ≤ (analyzeHead lookup geminiEnabled gemini p).1.trend_score ∧
          geminiEnabled = true)) ∧
    (∀ p : ScrapedProduct, (analyzeTail p).2 = false) ∧
    (∀ (lookup : ScrapedProduct → Option TrendData) (geminiEnabled : Bool)
        (gemini : ScrapedProduct → ℚ → Option String) (products : List ScrapedProduct),
      (analyze_products lookup geminiEnabled gemini products).length = products.length) := by
  refine ⟨fun lookup geminiEnabled gemini p => ?_, fun p => rfl, analyze_products_length⟩
  rw [analyzeHead_requested, analyzeHead_score, round2_calculate]
  simp [ge_iff_le]

/-- C7 witness: the head-request clause evaluated on a concrete item
with score 72 ≥ 60 and enrichment enabled. -/
theorem enrichment_request_spec_witness :
    (analyzeHead (fun _ => none) true (fun _ _ => none) widgetA).2 = true ↔
      (60 ≤ (analyzeHead (fun _ => none) true (fun _ _ => none) widgetA).1.trend_score ∧
        true = true) :=
  enrichment_request_spec.1 (fun _ => none) true (fun _ _ => none) widgetA

/-! ### Reconciliation development (claim C5) -/

/-- The rows of the store carrying the given product_name. -/
def recsNamed (st : Store) (name : String) : List PersistedProduct :=
  st.products.filter (fun r => r.product_name = name)

/-- How many history entries reference the given product id. -/
def histCount (st : Store) (id : ℕ) : ℕ :=
  (st.history.filter (fun e => e.product_id = id)).length

/-- Store sanity: ids are below the id sequence and pairwise distinct,
and history references stay below the id sequence. -/
def StoreWF (st : Store) : Prop :=
  (∀ r ∈ st.products, r.id < st.nextId) ∧
  st.products.Pairwise (fun a b => a.id ≠ b.id) ∧
  (∀ e ∈ st.history, e.product_id < st.nextId)

lemma emptyStore_wf : StoreWF emptyStore :=
  ⟨fun _ h => absurd h (List.not_mem_nil _), List.Pairwise.nil, fun _ h => absurd h (List.not_mem_nil _)⟩

lemma eq_of_mem_pairwise_ne {l : List PersistedProduct}
    (hp : l.Pairwise (fun a b => a.id ≠ b.id)) {r s : PersistedProduct}
    (hr : r ∈ l) (hs : s ∈ l) (hid : r.id = s.id) : r = s := by
  induction l with
  | nil => cases hr
  | cons a tl ih =>
    rcases List.pairwise_cons.mp hp with ⟨ha, htl⟩
    rcases List.mem_cons.mp hr with rfl | hr2
    · rcases List.mem_cons.mp hs with rfl | hs2
      · rfl
      · exact absurd hid (ha s hs2)
    · rcases List.mem_cons.mp hs with rfl | hs2
      · exact absurd hid.symm (ha r hr2)
      · exact ih htl hr2 hs2

lemma updateFields_id (tp : TrendingProduct) (r : PersistedProduct) :
    (updateFields tp r).id = r.id := rfl

lemma updateFields_first_seen (tp : TrendingProduct) (r : PersistedProduct) :
    (updateFields tp r).first_seen_date = r.first_seen_date := rfl

lemma updateFields_name (tp : TrendingProduct) (r : PersistedProduct) :
    (updateFields tp r).product_name = tp.product_name := rfl

lemma mem_and_name_of_recsNamed_cons {st : Store} {name : String} {r : PersistedProduct}
    {rest : List PersistedProduct} (h : recsNamed st name = r :: rest) :
    r ∈ st.products ∧ r.product_name = name := by
  have hmem : r ∈ recsNamed st name := by rw [h]; exact List.mem_cons_self r rest
  have h2 := List.mem_filter.mp hmem
  exact ⟨h2.1, by simpa using h2.2⟩

/-- reconcileItem in the found-by-name case: the head match of the
lookup gets its fields updated in place and one history entry is
appended referencing its id. -/
lemma reconcileItem_update (now : ℤ) (st : Store) (tp : TrendingProduct)
    (r : PersistedProduct) (rest : List PersistedProduct)
    (h : recsNamed st tp.product_name = r :: rest) :
    reconcileItem now st tp =
      ⟨st.products.map (fun s => if s.id = r.id then updateFields tp s else s),
       st.history ++ [⟨r.id, tp.trend_score, tp.search_volume⟩],
       st.nextId⟩ := by
  obtain ⟨hmem, _⟩ := mem_and_name_of_recsNamed_cons h
  have hgp : get_product_by_name st tp.product_name = some r := by
    show (recsNamed st tp.product_name).head? = some r
    rw [h]; rfl
  have hany : st.products.any (fun s => decide (s.id = r.id)) = true :=
    List.any_eq_true.mpr ⟨r, hmem, by simp⟩
  have hupd : update_trending_product st r.id tp =
      ({ st with products := st.products.map (fun s => if s.id = r.id then updateFields tp s else s) }, true) := by
    unfold update_trending_product
    rw [hany]
  unfold reconcileItem
  rw [hgp]
  show (let res := update_trending_product st r.id tp;
    if res.2 then insert_trend_history res.1 ⟨r.id, tp.trend_score, tp.search_volume⟩
    else res.1) = _
  rw [hupd]
  rfl

/-- reconcileItem in the not-found case: a fresh row is appended with a
new id, first_seen_date set to now, and one history entry referencing
the new id. -/
lemma reconcileItem_insert (now : ℤ) (st : Store) (tp : TrendingProduct)
    (h : recsNamed st tp.product_name = []) :
    reconcileItem now st tp =
      ⟨st.products ++ [⟨st.nextId, tp.product_name, tp.category, tp.source_url,
          tp.trend_score, tp.search_volume, tp.price_estimate, now, now, tp.status, tp.notes⟩],
       st.history ++ [⟨st.nextId, tp.trend_score, tp.search_volume⟩],
       st.nextId + 1⟩ := by
  have hgp : get_product_by_name st tp.product_name = none := by
    show (recsNamed st tp.product_name).head? = none
    rw [h]; rfl
  unfold reconcileItem
  rw [hgp]
  rfl

lemma reconcileItem_wf (now : ℤ) (st : Store) (tp : TrendingProduct) (hwf : StoreWF st) :
    StoreWF (reconcileItem now st tp) ∧ st.nextId ≤ (reconcileItem now st tp).nextId := by
  obtain ⟨hbound, hpair, hhist⟩ := hwf
  rcases hrec : recsNamed st tp.product_name with _ | ⟨r, rest⟩
  · rw [reconcileItem_insert now st tp hrec]
    refine ⟨⟨?_, ?_, ?_⟩, by simp⟩
    · intro s hs
      rcases List.mem_append.mp hs with h1 | h1
      · exact lt_trans (hbound s h1) (Nat.lt_succ_self _)
      · rcases List.mem_singleton.mp h1 with rfl
        exact Nat.lt_succ_self _
    · rw [List.pairwise_append]
      refine ⟨hpair, List.pairwise_singleton _ _, ?_⟩
      intro a ha b hb
      rcases List.mem_singleton.mp hb with rfl
      exact Nat.ne_of_lt (hbound a ha)
    · intro e he
      rcases List.mem_append.mp he with h1 | h1
      · exact lt_trans (hhist e h1) (Nat.lt_succ_self _)
      · rcases List.mem_singleton.mp h1 with rfl
        exact Nat.lt_succ_self _
  · obtain ⟨hmem, _⟩ := mem_and_name_of_recsNamed_cons hrec
    rw [reconcileItem_update now st tp r rest hrec]
    have hfid : ∀ x : PersistedProduct,
        (if x.id = r.id then updateFields tp x else x).id = x.id := by
      intro x
      by_cases hx : x.id = r.id
      · rw [if_pos hx, updateFields_id]
      · rw [if_neg hx]
    refine ⟨⟨?_, ?_, ?_⟩, le_refl _⟩
    · intro s hs
      rcases List.mem_map.mp hs with ⟨a, ha, rfl⟩
      rw [hfid]
      exact hbound a ha
    · rw [List.pairwise_map]
      refine hpair.imp ?_
      intro a b hne
      rw [hfid, hfid]
      exact hne
    · intro e he
      rcases List.mem_append.mp he with h1 | h1
      · exact hhist e h1
      · rcases List.mem_singleton.mp h1 with rfl
        exact hbound r hmem

lemma map_id_of_mem_eq {α : Type} {l : List α} {f : α → α} (h : ∀ a ∈ l, f a = a) :
    l.map f = l := by
  induction l with
  | nil => rfl
  | cons a tl ih =>
    simp only [List.map_cons]
    rw [h a (List.mem_cons_self a tl), ih (fun b hb => h b (List.mem_cons_of_mem a hb))]

/-- Reconciling one item whose name differs from the observed name
leaves the rows of that name, and the history entries of any of their
ids, untouched. -/
lemma reconcileItem_frame (now : ℤ) (st : Store) (tp : TrendingProduct) (name : String)
    (hwf : StoreWF st) (hne : tp.product_name ≠ name) :
    recsNamed (reconcileItem now st tp) name = recsNamed st name ∧
    (∀ id, (∃ s ∈ st.products, s.id = id ∧ s.product_name = name) →
      histCount (reconcileItem now st tp) id = histCount st id) := by
  obtain ⟨hbound, hpair, hhist⟩ := hwf
  rcases hrec : recsNamed st tp.product_name with _ | ⟨r, rest⟩
  · rw [reconcileItem_insert now st tp hrec]
    constructor
    · show (st.products ++ [_]).filter _ = _
      rw [List.filter_append]
      simp [recsNamed, hne]
    · rintro id ⟨s, hs, hsid, _⟩
      show ((st.history ++ [_]).filter _).length = _
      rw [List.filter_append]
      have hid : st.nextId ≠ id := by
        have h2 := hbound s hs
        omega
      simp [histCount, hid]
  · obtain ⟨hmem, hrname⟩ := mem_and_name_of_recsNamed_cons hrec
    rw [reconcileItem_update now st tp r rest hrec]
    constructor
    · show (st.products.map _).filter _ = _
      rw [List.filter_map]
      have h1 : st.products.filter
          ((fun x => decide (x.product_name = name)) ∘
            (fun s => if s.id = r.id then updateFields tp s else s)) =
          st.products.filter (fun x => decide (x.product_name = name)) := by
        apply List.filter_congr
        intro s hs
        by_cases hid : s.id = r.id
        · have hsr : s = r := eq_of_mem_pairwise_ne hpair hs hmem hid
          subst hsr
          simp [hid, updateFields_name, hrname]
        · simp [hid]
      rw [h1]
      apply map_id_of_mem_eq
      intro s hs2
      rcases List.mem_filter.mp hs2 with ⟨hsp, hsn⟩
      have hsname : s.product_name = name := by simpa using hsn
      by_cases hid : s.id = r.id
      · have hsr : s = r := eq_of_mem_pairwise_ne hpair hsp hmem hid
        exact absurd (hsr ▸ hsname) (hrname.symm ▸ hne)
      · rw [if_neg hid]
    · rintro id ⟨s, hs, hsid, hsname⟩
      show ((st.history ++ [_]).filter _).length = _
      rw [List.filter_append]
      have hsr : s ≠ r := fun he => hne (by rw [← hrname, ← he, hsname])
      have hid : r.id ≠ id := by
        intro he
        exact hsr (eq_of_mem_pairwise_ne hpair hs hmem (hsid.trans he.symm))
      simp [histCount, hid]

/-- Reconciling an item whose name has exactly one matching row
replaces that row with its field update and appends exactly one
history entry for its id. -/
lemma reconcileItem_update_named (now : ℤ) (st : Store) (tp : TrendingProduct)
    (r : PersistedProduct) (hwf : StoreWF st)
    (h : recsNamed st tp.product_name = [r]) :
    recsNamed (reconcileItem now st tp) tp.product_name = [updateFields tp r] ∧
    histCount (reconcileItem now st tp) r.id = histCount st r.id + 1 := by
  obtain ⟨hbound, hpair, hhist⟩ := hwf
  obtain ⟨hmem, hrname⟩ := mem_and_name_of_recsNamed_cons h
  rw [reconcileItem_update now st tp r [] h]
  constructor
  · show (st.products.map _).filter _ = _
    rw [List.filter_map]
    have h1 : st.products.filter
        ((fun x => decide (x.product_name = tp.product_name)) ∘
          (fun s => if s.id = r.id then updateFields tp s else s)) =
        st.products.filter (fun x => decide (x.product_name = tp.product_name)) := by
      apply List.filter_congr
      intro s hs
      by_cases hid : s.id = r.id
      · have hsr : s = r := eq_of_mem_pairwise_ne hpair hs hmem hid
        subst hsr
        simp [hid, updateFields_name, hrname]
      · simp [hid]
    rw [h1, show st.products.filter (fun x => decide (x.product_name = tp.product_name)) = [r] from h]
    simp
  · show ((st.history ++ [_]).filter _).length = _
    rw [List.filter_append]
    simp [histCount]

/-- Reconciling an item whose name has no matching row appends exactly
one fresh row (first seen now) and one history entry for the fresh
id. -/
lemma reconcileItem_insert_named (now : ℤ) (st : Store) (tp : TrendingProduct)
    (hwf : StoreWF st) (h : recsNamed st tp.product_name = []) :
    ∃ rNew : PersistedProduct,
      recsNamed (reconcileItem now st tp) tp.product_name = [rNew] ∧
      rNew.id = st.nextId ∧ rNew.first_seen_date = now ∧
      rNew.product_name = tp.product_name ∧
      histCount (reconcileItem now st tp) rNew.id = 1 := by
  obtain ⟨hbound, hpair, hhist⟩ := hwf
  rw [reconcileItem_insert now st tp h]
  refine ⟨⟨st.nextId, tp.product_name, tp.category, tp.source_url, tp.trend_score,
      tp.search_volume, tp.price_estimate, now, now, tp.status, tp.notes⟩,
    ?_, rfl, rfl, rfl, ?_⟩
  · show (st.products ++ [_]).filter _ = _
    rw [List.filter_append, show st.products.filter (fun x => decide (x.product_name = tp.product_name)) = [] from h]
    simp
  · show ((st.history ++ [_]).filter _).length = 1
    rw [List.filter_append]
    have hempty : st.history.filter (fun e => decide (e.product_id = st.nextId)) = [] := by
      rw [List.filter_eq_nil_iff]
      intro e he
      have h2 := hhist e he
      simp
      omega
    rw [hempty]
    simp

lemma reconcile_nil (now : ℤ) (st : Store) : reconcile now st [] = st := rfl

lemma reconcile_cons (now : ℤ) (st : Store) (tp : TrendingProduct)
    (rest : List TrendingProduct) :
    reconcile now st (tp :: rest) = reconcile now (reconcileItem now st tp) rest := rfl

lemma reconcile_wf (now : ℤ) :
    ∀ (top : List TrendingProduct) (st : Store), StoreWF st →
      StoreWF (reconcile now st top)
  | [], _, hwf => hwf
  | _ :: rest, st, hwf =>
    reconcile_wf now rest _ (reconcileItem_wf now st _ hwf).1

/-- Frame over a whole run: names absent from top are untouched, and so
are the history counts of their rows' ids. -/
lemma reconcile_frame (now : ℤ) :
    ∀ (top : List TrendingProduct) (st : Store) (name : String), StoreWF st →
      name ∉ top.map (fun tp => tp.product_name) →
      recsNamed (reconcile now st top) name = recsNamed st name ∧
      (∀ id, (∃ s ∈ st.products, s.id = id ∧ s.product_name = name) →
        histCount (reconcile now st top) id = histCount st id) := by
  intro top
  induction top with
  | nil => exact fun st name _ _ => ⟨rfl, fun _ _ => rfl⟩
  | cons tp rest ih =>
    intro st name hwf hnin
    simp only [List.map_cons, List.mem_cons, not_or] at hnin
    have hne : tp.product_name ≠ name := fun he => hnin.1 he.symm
    have hstep := reconcileItem_frame now st tp name hwf hne
    have hwf2 := (reconcileItem_wf now st tp hwf).1
    have hrest := ih (reconcileItem now st tp) name hwf2 hnin.2
    rw [reconcile_cons]
    refine ⟨hrest.1.trans hstep.1, ?_⟩
    rintro id ⟨s, hs, hsid, hsname⟩
    have hs1 : s ∈ recsNamed st name := List.mem_filter.mpr ⟨hs, by simp [hsname]⟩
    have hs2 : s ∈ recsNamed (reconcileItem now st tp) name := by rw [hstep.1]; exact hs1
    have hs3 := List.mem_filter.mp hs2
    rw [hrest.2 id ⟨s, hs3.1, hsid, hsname⟩, hstep.2 id ⟨s, hs, hsid, hsname⟩]

/-- A name present exactly once in the store and anywhere in top keeps
exactly one row across the run, with id and first_seen_date preserved,
and gains exactly one history entry. -/
lemma reconcile_tracked (now : ℤ) :
    ∀ (top : List TrendingProduct) (st : Store) (name : String) (r : PersistedProduct),
      StoreWF st → (top.map (fun tp => tp.product_name)).Nodup →
      name ∈ top.map (fun tp => tp.product_name) →
      recsNamed st name = [r] →
      ∃ u, recsNamed (reconcile now st top) name = [u] ∧ u.id = r.id ∧
        u.first_seen_date = r.first_seen_date ∧
        histCount (reconcile now st top) r.id = histCount st r.id + 1 := by
  intro top
  induction top with
  | nil => intro st name r _ _ hmem _; simp at hmem
  | cons tp rest ih =>
    intro st name r hwf hnd hmem hrec
    simp only [List.map_cons, List.nodup_cons] at hnd
    rw [reconcile_cons]
    rw [List.map_cons] at hmem
    rcases List.mem_cons.mp hmem with heq | hmem2
    · subst heq
      have hstep := reconcileItem_update_named now st tp r hwf hrec
      have hwf2 := (reconcileItem_wf now st tp hwf).1
      have hu_mem : updateFields tp r ∈ (reconcileItem now st tp).products := by
        have : updateFields tp r ∈ recsNamed (reconcileItem now st tp) tp.product_name := by
          rw [hstep.1]; exact List.mem_cons_self _ _
        exact (List.mem_filter.mp this).1
      have hframe := reconcile_frame now rest (reconcileItem now st tp) tp.product_name hwf2 hnd.1
      refine ⟨updateFields tp r, hframe.1.trans hstep.1, updateFields_id tp r,
        updateFields_first_seen tp r, ?_⟩
      rw [hframe.2 r.id ⟨updateFields tp r, hu_mem, updateFields_id tp r, updateFields_name tp r⟩,
        hstep.2]
    · have hne : tp.product_name ≠ name := fun he => hnd.1 (he ▸ hmem2)
      have hstep := reconcileItem_frame now st tp name hwf hne
      have hwf2 := (reconcileItem_wf now st tp hwf).1
      have hrec2 : recsNamed (reconcileItem now st tp) name = [r] := hstep.1.trans hrec
      obtain ⟨hmemr, hrname⟩ := mem_and_name_of_recsNamed_cons hrec
      obtain ⟨u, hu1, hu2, hu3, hu4⟩ :=
        ih (reconcileItem now st tp) name r hwf2 hnd.2 hmem2 hrec2
      refine ⟨u, hu1, hu2, hu3, ?_⟩
      rw [hu4, hstep.2 r.id ⟨r, hmemr, rfl, hrname⟩]

/-- A name absent from the store and present anywhere in top ends the
run with exactly one row, first seen at the run timestamp, and exactly
one history entry for its id. -/
lemma reconcile_fresh (now : ℤ) :
    ∀ (top : List TrendingProduct) (st : Store) (name : String),
      StoreWF st → (top.map (fun tp => tp.product_name)).Nodup →
      name ∈ top.map (fun tp => tp.product_name) →
      recsNamed st name = [] →
      ∃ u, recsNamed (reconcile now st top) name = [u] ∧ u.first_seen_date = now ∧
        u.product_name = name ∧ histCount (reconcile now st top) u.id = 1 := by
  intro top
  induction top with
  | nil => intro st name _ _ hmem _; simp at hmem
  | cons tp rest ih =>
    intro st name hwf hnd hmem hrec
    simp only [List.map_cons, List.nodup_cons] at hnd
    rw [reconcile_cons]
    rw [List.map_cons] at hmem
    rcases List.mem_cons.mp hmem with heq | hmem2
    · subst heq
      obtain ⟨rNew, hr1, _, hr3, hr4, hr5⟩ :=
        reconcileItem_insert_named now st tp hwf hrec
      have hwf2 := (reconcileItem_wf now st tp hwf).1
      have hr_mem : rNew ∈ (reconcileItem now st tp).products := by
        have : rNew ∈ recsNamed (reconcileItem now st tp) tp.product_name := by
          rw [hr1]; exact List.mem_cons_self _ _
        exact (List.mem_filter.mp this).1
      have hframe := reconcile_frame now rest (reconcileItem now st tp) tp.product_name hwf2 hnd.1
      refine ⟨rNew, hframe.1.trans hr1, hr3, hr4, ?_⟩
      rw [hframe.2 rNew.id ⟨rNew, hr_mem, rfl, hr4⟩, hr5]
    · have hne : tp.product_name ≠ name := fun he => hnd.1 (he ▸ hmem2)
      have hstep := reconcileItem_frame now st tp name hwf hne
      have hwf2 := (reconcileItem_wf now st tp hwf).1
      have hrec2 : recsNamed (reconcileItem now st tp) name = [] := hstep.1.trans hrec
      exact ih (reconcileItem now st tp) name hwf2 hnd.2 hmem2 hrec2

/-! ### Claim C5 -/

def tpAlpha : TrendingProduct :=
  ⟨none, "Alpha", "cat", "url", 80, some 5, some 30, none, none, "active", some "n"⟩

def tpBeta : TrendingProduct :=
  ⟨none, "Beta", "cat", "url", 70, some 3, some 20, none, none, "active", some "n"⟩

/-- C5 counterexample: when the same name occurs twice in top_n, each
run appends one history entry per occurrence, so two runs leave 4
history entries referencing the single record's id, not the claimed 2
(one per run); the record itself is still unique. -/
theorem reconcile_dup_topn_counterexample :
    (recsNamed (reconcile 1 (reconcile 0 emptyStore [tpAlpha, tpAlpha])
        [tpAlpha, tpAlpha]) "Alpha").length = 1 ∧
    histCount (reconcile 1 (reconcile 0 emptyStore [tpAlpha, tpAlpha])
        [tpAlpha, tpAlpha]) 0 = 4 ∧
    (4 : ℕ) ≠ 2 := by
  refine ⟨?_, ?_, by decide⟩ <;> rfl

/-- C5 (amended): provided each product_name occurs at most once in
top_n, running reconciliation twice with the unchanged top_n from an
empty store leaves exactly one PersistedProduct for each name in
top_n, the second run preserves that record's id and first_seen_date,
and each run appends exactly one HistoryEntry referencing that id (one
after run one, two after run two).  When a name occurs k times in
top_n, each run instead appends k entries for it (see the
counterexample). -/
theorem reconcile_idempotent_per_name (top : List TrendingProduct) (now1 now2 : ℤ)
    (name : String) (hnd : (top.map (fun tp => tp.product_name)).Nodup)
    (hmem : name ∈ top.map (fun tp => tp.product_name)) :
    ∃ u1 u2,
      recsNamed (reconcile now1 emptyStore top) name = [u1] ∧
      recsNamed (reconcile now2 (reconcile now1 emptyStore top) top) name = [u2] ∧
      u2.id = u1.id ∧ u2.first_seen_date = u1.first_seen_date ∧
      u1.first_seen_date = now1 ∧
      histCount (reconcile now1 emptyStore top) u1.id = 1 ∧
      histCount (reconcile now2 (reconcile now1 emptyStore top) top) u1.id = 2 := by
  have h0 : recsNamed emptyStore name = [] := rfl
  obtain ⟨u1, h1, hfsd, _, hhist1⟩ :=
    reconcile_fresh now1 top emptyStore name emptyStore_wf hnd hmem h0
  have hwf1 := reconcile_wf now1 top emptyStore emptyStore_wf
  obtain ⟨u2, h2, hid2, hfsd2, hhist2⟩ :=
    reconcile_tracked now2 top (reconcile now1 emptyStore top) name u1 hwf1 hnd hmem h1
  exact ⟨u1, u2, h1, h2, hid2, hfsd2, hfsd, hhist1, by rw [hhist2, hhist1]⟩

/-- C5 witness: two runs over the two-name top_n [Alpha, Beta],
tracking the Alpha record. -/
theorem reconcile_idempotent_per_name_witness :
    ∃ u1 u2,
      recsNamed (reconcile 0 emptyStore [tpAlpha, tpBeta]) "Alpha" = [u1] ∧
      recsNamed (reconcile 1 (reconcile 0 emptyStore [tpAlpha, tpBeta])
        [tpAlpha, tpBeta]) "Alpha" = [u2] ∧
      u2.id = u1.id ∧ u2.first_seen_date = u1.first_seen_date ∧
      u1.first_seen_date = 0 ∧
      histCount (reconcile 0 emptyStore [tpAlpha, tpBeta]) u1.id = 1 ∧
      histCount (reconcile 1 (reconcile 0 emptyStore [tpAlpha, tpBeta])
        [tpAlpha, tpBeta]) u1.id = 2 :=
  reconcile_idempotent_per_name [tpAlpha, tpBeta] 0 1 "Alpha" (by decide) (by decide)

end GenRun
